import Mathlib

/-!
Shallow embedding of the authentication base module (`src/auth/base.rs`) and
the compute-v2 server manager (`src/compute/v2/servermanager.rs`) of a Rust
OpenStack API client, together with theorems checking the repository's
natural-language specification against this embedding.

Conventions of the embedding:
* Rust methods taking `&mut self` are modelled as functions returning a pair
  `(result, new_self)`, making any mutation of the receiver explicit.
* The HTTP transport (`hyper::Client`) and the service wrapper's `http_get`
  are external collaborators; they appear as opaque values / function
  parameters, so theorems quantify over every possible transport behaviour.
* `Result<T, E>` is modelled as `Except E T`; `try!` as the corresponding
  match that propagates the error.
-/

namespace OpenStack

/-- Modelled from the spec: `hyper::Client`, the HTTP transport handle.  The
transport is an external collaborator (spec section 1), so it is a value the
no-auth method never inspects. -/
structure Client where
  mk ::

/-- Modelled from the spec: `time::PreciseTime`, an absolute instant used only
as the payload of an optional expiration time. -/
structure PreciseTime where
  t : Nat
deriving DecidableEq

/-- `auth::base::AuthToken`: token contents plus optional expiration time
(`expires_at = none` means the token never expires). -/
structure AuthToken where
  token : String
  expires_at : Option PreciseTime
deriving DecidableEq

/-- Modelled from the spec: `hyper::error::ParseError`, the error returned
when an endpoint string is not a well-formed absolute URL. -/
inductive ParseError where
  | invalidUrl
deriving DecidableEq

/-- Modelled from the spec: `hyper::Error`, the error type of the auth-method
operations.  `NoAuth` never produces one; a single constructor suffices. -/
inductive HError where
  | transport
deriving DecidableEq

/-- Helper for the URL model: split a character list at the first `"://"`
separator, returning the scheme characters before it and the remainder. -/
def splitScheme : List Char → Option (List Char × List Char)
  | [] => none
  | ':' :: '/' :: '/' :: rest => some ([], rest)
  | c :: cs =>
    match splitScheme cs with
    | some (scheme, rest) => some (c :: scheme, rest)
    | none => none

/-- Modelled from the spec: well-formedness of an absolute URL string as
checked by `hyper`'s URL parser (section 6: "must be an absolute, parseable
URL").  A string is accepted when it has a nonempty alphabetic scheme, the
`"://"` separator, a nonempty remainder, and no space character. -/
def isWellFormedAbsoluteUrl (s : String) : Bool :=
  match splitScheme s.toList with
  | some (scheme, rest) =>
    !scheme.isEmpty && scheme.all Char.isAlpha && !rest.isEmpty &&
      s.toList.all (fun c => c ≠ ' ')
  | none => false

/-- Modelled from the spec: `hyper::Url`, a URL validated at parse time.  The
model keeps the raw accepted string. -/
structure Url where
  raw : String
deriving DecidableEq

/-- Modelled from the spec: `IntoUrl::into_url`, parsing a string into a URL
or failing with a `ParseError`. -/
def intoUrl (s : String) : Except ParseError Url :=
  if isWellFormedAbsoluteUrl s then Except.ok ⟨s⟩ else Except.error ParseError.invalidUrl

/-- `auth::base::NoAuth`: authentication method that provides no
authentication, holding one fixed pre-validated endpoint. -/
structure NoAuth where
  endpoint : Url
deriving DecidableEq

/-- `NoAuth::new`: create a fake authentication method using a fixed endpoint;
`try!(endpoint.into_url())` propagates a parse failure. -/
def NoAuth.new (endpoint : String) : Except ParseError NoAuth :=
  match intoUrl endpoint with
  | Except.ok url => Except.ok { endpoint := url }
  | Except.error e => Except.error e

/-- `NoAuth::get_token` (Rust signature `&mut self`; the returned second
component is the receiver after the call): return a fake token for compliance
with the protocol. -/
def NoAuth.get_token (self : NoAuth) (_client : Client) :
    Except HError AuthToken × NoAuth :=
  (Except.ok { token := "no-auth", expires_at := none }, self)

/-- `NoAuth::get_endpoint` (Rust signature `&mut self`): return the predefined
endpoint for all service types. -/
def NoAuth.get_endpoint (self : NoAuth) (_service_type : String) (_client : Client) :
    Except HError Url × NoAuth :=
  (Except.ok self.endpoint, self)

/-- Modelled from the spec: crate-root `Sort<T>` (not under `src/`), the
tagged sort-specification variant `Asc(field) | Desc(field)`.  Named `Sort'`
because `Sort` is reserved in Lean. -/
inductive Sort' (α : Type) where
  | Asc (field : α)
  | Desc (field : α)
deriving DecidableEq

/-- Modelled from the spec: the `(field, direction)` conversion used by
`fetch` via `sort.into()`; direction strings are exactly `"asc"` and
`"desc"`. -/
def Sort'.into : Sort' String → String × String
  | Sort'.Asc field => (field, "asc")
  | Sort'.Desc field => (field, "desc")

/-- Modelled from the spec: `service::Query` (not under `src/`), an ordered
multi-valued association list of query-string keys and values; repeated keys
are allowed and meaningful. -/
abbrev Query : Type := List (String × String)

/-- `Query::new`: the empty query. -/
def Query.new : Query := []

/-- Modelled from the spec: `Query::push` appends a pair at the end, never
overwriting; values are rendered to strings. -/
def Query.push (q : Query) (key value : String) : Query := q ++ [(key, value)]

/-- Modelled from the spec: the error type behind `ApiResult` — transport
failure, non-success HTTP status, or JSON decode failure. -/
inductive ApiError where
  | transport
  | httpStatus (code : Nat)
  | decode
deriving DecidableEq

/-- `ApiResult<T>`: fallible outcome of an API operation. -/
abbrev ApiResult (α : Type) : Type := Except ApiError α

/-- Modelled from the spec: `V2ServiceWrapper::clone` — the wrapper is a
cheap-to-clone handle and cloning yields an equal wrapper referencing the same
session (spec section 4.3).  The wrapper itself stays abstract as a type
parameter `Svc`; clone is therefore the identity on the handle value. -/
def V2ServiceWrapper.clone {Svc : Type} (service : Svc) : Svc := service

namespace protocol

/-- `protocol::ServerSummary`: fields returned by the list endpoint. -/
structure ServerSummary where
  id : String
  name : String
deriving DecidableEq

/-- `protocol::Server`: full server representation. -/
structure Server where
  accessIPv4 : String
  accessIPv6 : String
  id : String
  name : String
  status : String
deriving DecidableEq

/-- `protocol::ServersRoot`: root object of a list response. -/
structure ServersRoot where
  servers : List ServerSummary
deriving DecidableEq

/-- `protocol::ServerRoot`: root object of a get response. -/
structure ServerRoot where
  server : Server
deriving DecidableEq

end protocol

/-- `ServerListRequest`: a request to list servers, generic over the service
wrapper handle `Svc` (in Rust, `V2ServiceWrapper<'a, Auth>`). -/
structure ServerListRequest (Svc : Type) where
  service : Svc
  marker : Option String
  limit : Option Nat
  sort : List (Sort' String)
deriving DecidableEq

/-- `Server`: a full server wrapped with its service handle. -/
structure Server (Svc : Type) where
  service : Svc
  inner : protocol.Server
deriving DecidableEq

/-- `ServerSummary`: a summary of a single server wrapped with its service
handle. -/
structure ServerSummary (Svc : Type) where
  service : Svc
  inner : protocol.ServerSummary
deriving DecidableEq

/-- `ServerManager`: working with virtual servers. -/
structure ServerManager (Svc : Type) where
  service : Svc
deriving DecidableEq

/-- `Server::id`. -/
def Server.id {Svc : Type} (self : Server Svc) : String := self.inner.id

/-- `ServerSummary::id`. -/
def ServerSummary.id {Svc : Type} (self : ServerSummary Svc) : String := self.inner.id

/-- `ServerSummary::name`. -/
def ServerSummary.name {Svc : Type} (self : ServerSummary Svc) : String := self.inner.name

/-- `ServerListRequest::new`: fresh builder with no marker, no limit and an
empty sort list. -/
def ServerListRequest.new {Svc : Type} (service : Svc) : ServerListRequest Svc :=
  { service := service, marker := none, limit := none, sort := [] }

/-- `ServerListRequest::with_marker`: functional-update of the `marker`
field, all other fields taken from `self`. -/
def ServerListRequest.with_marker {Svc : Type} (self : ServerListRequest Svc)
    (marker : String) : ServerListRequest Svc :=
  { self with marker := some marker }

/-- `ServerListRequest::with_limit`: functional-update of the `limit` field,
all other fields taken from `self`. -/
def ServerListRequest.with_limit {Svc : Type} (self : ServerListRequest Svc)
    (limit : Nat) : ServerListRequest Svc :=
  { self with limit := some limit }

/-- `ServerListRequest::sort_by`: push the (string-converted) sort entry at
the end of `self.sort`; with `T = String` the `Into<String>` conversion in
the source match arms is the identity on the carried field. -/
def ServerListRequest.sort_by {Svc : Type} (self : ServerListRequest Svc)
    (sort : Sort' String) : ServerListRequest Svc :=
  { self with
    sort := self.sort ++ [match sort with
      | Sort'.Asc v => Sort'.Asc v
      | Sort'.Desc v => Sort'.Desc v] }

/-- The query built by the first half of `ServerListRequest::fetch` (lines
188–199 of the source): marker if set, then limit if set, then
`sort_key`/`sort_dir` pairs in accumulated order. -/
def ServerListRequest.buildQuery {Svc : Type} (self : ServerListRequest Svc) : Query :=
  let query := Query.new
  let query := match self.marker with
    | some marker => query.push "marker" marker
    | none => query
  let query := match self.limit with
    | some limit => query.push "limit" (toString limit)
    | none => query
  self.sort.foldl (fun query sort =>
    let (field, direction) := sort.into
    (query.push "sort_key" field).push "sort_dir" direction) query

/-- `ServerListRequest::fetch`: build the query, issue one
`http_get(["servers"], query)` on the service wrapper, propagate any failure
(`try!`), and wrap each decoded summary with a clone of the wrapper.  The
transport behaviour `http_get` is an external collaborator passed as a
parameter. -/
def ServerListRequest.fetch {Svc : Type} (self : ServerListRequest Svc)
    (http_get : Svc → List String → Query → ApiResult protocol.ServersRoot) :
    ApiResult (List (ServerSummary Svc)) :=
  let service := self.service
  match http_get service ["servers"] self.buildQuery with
  | Except.error e => Except.error e
  | Except.ok inner =>
    Except.ok (inner.servers.map (fun x =>
      { service := V2ServiceWrapper.clone service, inner := x }))

/-- `ServerManager::get_server`: issue one `http_get(["servers", id],
Query::new())`, propagate any failure, and wrap the decoded server. -/
def ServerManager.get_server {Svc : Type} (service : Svc) (id : String)
    (http_get : Svc → List String → Query → ApiResult protocol.ServerRoot) :
    ApiResult (Server Svc) :=
  match http_get service ["servers", id] Query.new with
  | Except.error e => Except.error e
  | Except.ok inner => Except.ok { service := service, inner := inner.server }

/-- `ServerManager::get`: get a server by id via `get_server` on a clone of
the manager's service wrapper. -/
def ServerManager.get {Svc : Type} (self : ServerManager Svc) (id : String)
    (http_get : Svc → List String → Query → ApiResult protocol.ServerRoot) :
    ApiResult (Server Svc) :=
  ServerManager.get_server (V2ServiceWrapper.clone self.service) id http_get

/-- `ServerManager::list`: fresh list request on a clone of the manager's
service wrapper. -/
def ServerManager.list {Svc : Type} (self : ServerManager Svc) :
    ServerListRequest Svc :=
  ServerListRequest.new (V2ServiceWrapper.clone self.service)

/-- `ServerSummary::details`: `ServerManager::get_server(self.service.clone(),
&self.inner.id)` — one GET for the full server, returned as a new object. -/
def ServerSummary.details {Svc : Type} (self : ServerSummary Svc)
    (http_get : Svc → List String → Query → ApiResult protocol.ServerRoot) :
    ApiResult (Server Svc) :=
  ServerManager.get_server (V2ServiceWrapper.clone self.service) self.inner.id http_get

/-! ## Theorems -/

/-- Claim C3: for every `NoAuth` value and every transport client, and for
any number of successive calls, `get_token` returns `Ok` with token string
exactly `"no-auth"` and `expires_at` absent.  The second conjunct shows the
receiver returned by the call is the original value, for every iteration
count `n`, so every successive call starts from the same state and returns
the same result. -/
theorem noauth_get_token_always_no_auth (a : OpenStack.NoAuth)
    (c : OpenStack.Client) (n : Nat) :
    a.get_token c =
      (Except.ok { token := "no-auth", expires_at := none }, a) ∧
    (fun s : OpenStack.NoAuth => (s.get_token c).2)^[n] a = a := by
  refine ⟨rfl, ?_⟩
  have h : (fun s : OpenStack.NoAuth => (s.get_token c).2) = id := rfl
  rw [h, Function.iterate_id, id_eq]

/-- Claim C4: for every `NoAuth` constructed successfully from a URL string
`u`, and for every service type and client, `get_endpoint` returns exactly
the URL made of `u`, unchanged; the second conjunct shows the result does
not depend on the `service_type` argument at all. -/
theorem noauth_get_endpoint_returns_construction_url (u : String)
    (a : OpenStack.NoAuth) (h : OpenStack.NoAuth.new u = Except.ok a)
    (st : String) (c : OpenStack.Client) :
    a.get_endpoint st c = (Except.ok ⟨u⟩, a) ∧
    ∀ st₁ st₂ : String, a.get_endpoint st₁ c = a.get_endpoint st₂ c := by
  refine ⟨?_, fun st₁ st₂ => rfl⟩
  unfold OpenStack.NoAuth.new OpenStack.intoUrl at h
  by_cases hw : OpenStack.isWellFormedAbsoluteUrl u = true
  · simp only [hw, if_true] at h
    cases h
    rfl
  · rw [Bool.not_eq_true] at hw
    simp [hw] at h

/-- Witness for C4 at the concrete endpoint `"http://example.com/v1"` and
service type `"compute"`. -/
theorem noauth_get_endpoint_witness :
    (OpenStack.NoAuth.mk ⟨"http://example.com/v1"⟩).get_endpoint "compute"
        OpenStack.Client.mk =
      (Except.ok ⟨"http://example.com/v1"⟩,
        OpenStack.NoAuth.mk ⟨"http://example.com/v1"⟩) :=
  (noauth_get_endpoint_returns_construction_url "http://example.com/v1"
    (OpenStack.NoAuth.mk ⟨"http://example.com/v1"⟩) (by rfl)
    "compute" OpenStack.Client.mk).1

/-- Claim C5: `NoAuth::new` validates its endpoint at construction time: it
returns `Ok` storing exactly the given URL when the string is a well-formed
absolute URL, and returns a parse error (producing no `NoAuth` value) when it
is not.  Validation happens in `new` itself — `get_token` and `get_endpoint`
never fail (see the C10 theorem), so it cannot be deferred to them. -/
theorem noauth_new_validates (s : String) :
    (OpenStack.isWellFormedAbsoluteUrl s = true →
      OpenStack.NoAuth.new s = Except.ok ⟨⟨s⟩⟩) ∧
    (OpenStack.isWellFormedAbsoluteUrl s = false →
      OpenStack.NoAuth.new s = Except.error OpenStack.ParseError.invalidUrl) := by
  constructor <;> intro h <;>
    simp [OpenStack.NoAuth.new, OpenStack.intoUrl, h]

/-- Witness for C5: construction succeeds on the well-formed absolute URL
`"http://example.com/v1"` and fails on the malformed string `"foo bar"`. -/
theorem noauth_new_validates_witness :
    OpenStack.NoAuth.new "http://example.com/v1" =
      Except.ok ⟨⟨"http://example.com/v1"⟩⟩ ∧
    OpenStack.NoAuth.new "foo bar" =
      Except.error OpenStack.ParseError.invalidUrl :=
  ⟨(noauth_new_validates "http://example.com/v1").1 (by decide),
   (noauth_new_validates "foo bar").2 (by decide)⟩

/-- Claim C10: although the `AuthMethod` contract types both operations as
fallible, `NoAuth::get_token` and `NoAuth::get_endpoint` always return `Ok`
for every receiver, service type and client (their error branch is
unreachable), neither call changes the receiver, and repeating either call
yields an equal result. -/
theorem noauth_infallible_and_pure (a : OpenStack.NoAuth) (st : String)
    (c : OpenStack.Client) :
    (a.get_token c).1 = Except.ok { token := "no-auth", expires_at := none } ∧
    (a.get_token c).2 = a ∧
    (a.get_endpoint st c).1 = Except.ok a.endpoint ∧
    (a.get_endpoint st c).2 = a ∧
    ((a.get_token c).2).get_token c = a.get_token c ∧
    ((a.get_endpoint st c).2).get_endpoint st c = a.get_endpoint st c :=
  ⟨rfl, rfl, rfl, rfl, rfl, rfl⟩

/-- Helper: folding the `sort_key`/`sort_dir` pushes of `fetch` over any
starting query appends the flattened pairs in accumulated order. -/
theorem foldl_push_sort (l : List (OpenStack.Sort' String)) (q : OpenStack.Query) :
    l.foldl (fun query sort =>
      let (field, direction) := sort.into
      (query.push "sort_key" field).push "sort_dir" direction) q =
    q ++ l.flatMap (fun s =>
      [("sort_key", s.into.1), ("sort_dir", s.into.2)]) := by
  induction l generalizing q with
  | nil => simp
  | cons s rest ih =>
    rw [List.foldl_cons, ih]
    cases s <;> simp [OpenStack.Sort'.into, OpenStack.Query.push, List.append_assoc]

/-- Claim C1: the query built by `fetch` is, in this exact order: the pair
`("marker", m)` when the marker is set, then `("limit", l)` when the limit is
set, then for each accumulated sort entry in order a `("sort_key", field)`
pair immediately followed by `("sort_dir", direction)`; the direction string
is exactly `"asc"` for `Asc` and `"desc"` for `Desc`. -/
theorem fetch_builds_query_in_order {Svc : Type} (req : OpenStack.ServerListRequest Svc) :
    req.buildQuery =
      (match req.marker with
        | some m => [("marker", m)]
        | none => []) ++
      (match req.limit with
        | some l => [("limit", toString l)]
        | none => []) ++
      req.sort.flatMap (fun s =>
        [("sort_key", s.into.1), ("sort_dir", s.into.2)]) ∧
    (∀ f : String, (OpenStack.Sort'.Asc f).into = (f, "asc")) ∧
    (∀ f : String, (OpenStack.Sort'.Desc f).into = (f, "desc")) := by
  refine ⟨?_, fun f => rfl, fun f => rfl⟩
  unfold OpenStack.ServerListRequest.buildQuery
  dsimp only
  cases req.marker <;> cases req.limit <;>
    rw [foldl_push_sort] <;>
    simp [OpenStack.Query.new, OpenStack.Query.push]

/-- Claim C2: whenever the transport answers the list request with a root
object, `fetch` returns exactly the server-given sequence of summaries, in
order, each wrapped with a clone of the service wrapper; in particular the
result has the same length as the server's list.  `req` ranges over every
builder, including the empty one produced by `ServerListRequest.new`. -/
theorem fetch_preserves_server_order {Svc : Type}
    (req : OpenStack.ServerListRequest Svc)
    (http_get : Svc → List String → OpenStack.Query →
      OpenStack.ApiResult OpenStack.protocol.ServersRoot)
    (root : OpenStack.protocol.ServersRoot)
    (h : http_get req.service ["servers"] req.buildQuery = Except.ok root) :
    req.fetch http_get =
      Except.ok (root.servers.map (fun x =>
        { service := OpenStack.V2ServiceWrapper.clone req.service, inner := x })) ∧
    ∀ l, req.fetch http_get = Except.ok l → l.length = root.servers.length := by
  have hf : req.fetch http_get =
      Except.ok (root.servers.map (fun x =>
        { service := OpenStack.V2ServiceWrapper.clone req.service, inner := x })) := by
    unfold OpenStack.ServerListRequest.fetch
    dsimp only
    rw [h]
  refine ⟨hf, fun l hl => ?_⟩
  rw [hf] at hl
  cases hl
  simp

/-- Witness for C2: the empty builder over a two-summary response yields both
summaries in server order. -/
theorem fetch_preserves_server_order_witness :
    (OpenStack.ServerListRequest.new ()).fetch
        (fun _ _ _ => Except.ok ⟨[⟨"a", "x"⟩, ⟨"b", "y"⟩]⟩) =
      Except.ok [⟨(), ⟨"a", "x"⟩⟩, ⟨(), ⟨"b", "y"⟩⟩] :=
  (fetch_preserves_server_order (OpenStack.ServerListRequest.new ())
    (fun _ _ _ => Except.ok ⟨[⟨"a", "x"⟩, ⟨"b", "y"⟩]⟩)
    ⟨[⟨"a", "x"⟩, ⟨"b", "y"⟩]⟩ rfl).1

/-- Claim C6: `fetch` is all-or-nothing — when the underlying `http_get`
fails with any error (transport, HTTP status or decode), `fetch` returns
exactly that failure and no summaries; when it succeeds, `fetch` returns the
full decoded page. -/
theorem fetch_all_or_nothing {Svc : Type}
    (req : OpenStack.ServerListRequest Svc)
    (http_get : Svc → List String → OpenStack.Query →
      OpenStack.ApiResult OpenStack.protocol.ServersRoot) :
    (∀ e, http_get req.service ["servers"] req.buildQuery = Except.error e →
      req.fetch http_get = Except.error e) ∧
    (∀ root, http_get req.service ["servers"] req.buildQuery = Except.ok root →
      req.fetch http_get = Except.ok (root.servers.map (fun x =>
        { service := OpenStack.V2ServiceWrapper.clone req.service, inner := x }))) := by
  constructor <;> intro r h <;>
    unfold OpenStack.ServerListRequest.fetch <;> dsimp only <;> rw [h]

/-- Witness for C6: on the empty builder a decode failure propagates as-is,
and a one-summary success returns the full page. -/
theorem fetch_all_or_nothing_witness :
    (OpenStack.ServerListRequest.new ()).fetch
        (fun _ _ _ => Except.error OpenStack.ApiError.decode) =
      Except.error OpenStack.ApiError.decode ∧
    (OpenStack.ServerListRequest.new ()).fetch
        (fun _ _ _ => Except.ok ⟨[⟨"a", "x"⟩]⟩) =
      Except.ok [⟨(), ⟨"a", "x"⟩⟩] :=
  ⟨(fetch_all_or_nothing (OpenStack.ServerListRequest.new ())
      (fun _ _ _ => Except.error OpenStack.ApiError.decode)).1
      OpenStack.ApiError.decode rfl,
   (fetch_all_or_nothing (OpenStack.ServerListRequest.new ())
      (fun _ _ _ => Except.ok ⟨[⟨"a", "x"⟩]⟩)).2
      ⟨[⟨"a", "x"⟩]⟩ rfl⟩

/-- Claim C7: the builder methods are frame-preserving immutable updates:
`with_marker` sets only `marker`, `with_limit` sets only `limit`, and
`sort_by` only appends the new entry at the end of `sort`; every other field
(including the service wrapper) is taken unchanged from the input builder. -/
theorem builder_frame_preserving {Svc : Type} (b : OpenStack.ServerListRequest Svc)
    (m : String) (l : Nat) (s : OpenStack.Sort' String) :
    ((b.with_marker m).marker = some m ∧ (b.with_marker m).limit = b.limit ∧
      (b.with_marker m).sort = b.sort ∧ (b.with_marker m).service = b.service) ∧
    ((b.with_limit l).limit = some l ∧ (b.with_limit l).marker = b.marker ∧
      (b.with_limit l).sort = b.sort ∧ (b.with_limit l).service = b.service) ∧
    ((b.sort_by s).sort = b.sort ++ [s] ∧ (b.sort_by s).marker = b.marker ∧
      (b.sort_by s).limit = b.limit ∧ (b.sort_by s).service = b.service) := by
  refine ⟨⟨rfl, rfl, rfl, rfl⟩, ⟨rfl, rfl, rfl, rfl⟩, ⟨?_, rfl, rfl, rfl⟩⟩
  cases s <;> rfl

/-- Claim C8: `details()` on a summary with id `X` performs exactly the call
`http_get(["servers", X], Query::new())` — the same request as
`ServerManager::get` applied to `X` — and returns a newly built `Server`
whose `id()` equals the id of the decoded resource.  The summary value is
not modified (the embedding is pure; `details` only reads it). -/
theorem details_fetches_by_id {Svc : Type} (s : OpenStack.ServerSummary Svc)
    (http_get : Svc → List String → OpenStack.Query →
      OpenStack.ApiResult OpenStack.protocol.ServerRoot) :
    s.details http_get =
      OpenStack.ServerManager.get ⟨s.service⟩ s.inner.id http_get ∧
    s.details http_get =
      (match http_get s.service ["servers", s.inner.id] OpenStack.Query.new with
        | Except.error e => Except.error e
        | Except.ok root => Except.ok ⟨s.service, root.server⟩) ∧
    ∀ root, http_get s.service ["servers", s.inner.id] OpenStack.Query.new =
        Except.ok root →
      ∃ srv, s.details http_get = Except.ok srv ∧
        OpenStack.Server.id srv = root.server.id := by
  refine ⟨rfl, rfl, fun root h => ?_⟩
  refine ⟨⟨s.service, root.server⟩, ?_, rfl⟩
  unfold OpenStack.ServerSummary.details OpenStack.ServerManager.get_server
    OpenStack.V2ServiceWrapper.clone
  rw [h]

/-- Witness for C8: a summary with id `"X"` against a transport returning a
full server with id `"X"` yields a `Server` whose id matches. -/
theorem details_fetches_by_id_witness :
    ∃ srv, (OpenStack.ServerSummary.mk () ⟨"X", "Y"⟩).details
        (fun _ _ _ => Except.ok ⟨⟨"ip4", "ip6", "X", "Y", "ACTIVE"⟩⟩) =
      Except.ok srv ∧ OpenStack.Server.id srv = "X" :=
  (details_fetches_by_id (OpenStack.ServerSummary.mk () ⟨"X", "Y"⟩)
    (fun _ _ _ => Except.ok ⟨⟨"ip4", "ip6", "X", "Y", "ACTIVE"⟩⟩)).2.2
    ⟨⟨"ip4", "ip6", "X", "Y", "ACTIVE"⟩⟩ rfl

end OpenStack
